import Mathlib

/-!
Shallow embedding of the ShadowMount daemon (src/src/main.c) and its
companion kill tool (src/src/kill.c).

C strings are modelled as `List Char` (the terminating NUL is the end of
the list); file-system paths are Lean `String`s built by the same
concatenations the C code performs with `snprintf`.  The file system is
an abstract record of query functions (`FS`); `stat`/`access` success is
collapsed into `FS.pathExists`, `readdir` enumeration into `FS.listDir`,
whole-file reads into `FS.readFile`, and `st_mtime` into `FS.mtime`
(seconds, as `Int`, compared against `FS.now` exactly as `difftime` does
on integral `time_t`).  Side-effecting operations are embedded as event
traces so that theorems can speak about which operations a code path
performs and in which order.
-/

namespace ShadowMount

/-- Configuration constants from main.c. -/
def MAX_PENDING : Nat := 512

def MAX_TITLE_ID : Nat := 32

def MAX_TITLE_NAME : Nat := 256

def SCAN_INTERVAL_US : Nat := 3000000

def LOG_DIR : String := "/data/shadowmount"

def LOG_FILE : String := "/data/shadowmount/debug.log"

def LOCK_FILE : String := "/data/shadowmount/daemon.lock"

def KILL_FILE : String := "/data/shadowmount/STOP"

/-- Scan roots from the `SCAN_PATHS` table in main.c (the terminating NULL
is the end of the list). -/
def SCAN_PATHS : List String :=
  ["/data/homebrew", "/data/etaHEN/games",
   "/mnt/usb0/homebrew", "/mnt/usb1/homebrew", "/mnt/usb2/homebrew", "/mnt/usb3/homebrew",
   "/mnt/usb4/homebrew", "/mnt/usb5/homebrew", "/mnt/usb6/homebrew", "/mnt/usb7/homebrew",
   "/mnt/usb0/etaHEN/games", "/mnt/usb1/etaHEN/games", "/mnt/usb2/etaHEN/games",
   "/mnt/usb3/etaHEN/games", "/mnt/usb4/etaHEN/games", "/mnt/usb5/etaHEN/games",
   "/mnt/usb6/etaHEN/games", "/mnt/usb7/etaHEN/games",
   "/mnt/usb0", "/mnt/usb1", "/mnt/usb2", "/mnt/usb3",
   "/mnt/usb4", "/mnt/usb5", "/mnt/usb6", "/mnt/usb7",
   "/mnt/ext0", "/mnt/ext1"]

/-- `startsWithL pat l` holds when `pat` is an initial segment of `l`
(the comparison `strncmp`/`strstr` performs at one position). -/
def startsWithL : List Char → List Char → Bool
  | [], _ => true
  | _ :: _, [] => false
  | a :: as, b :: bs => a == b && startsWithL as bs

/-- C `strstr`: the first suffix of the haystack that starts with the
needle, or `none` when the needle does not occur. -/
def findSub (needle : List Char) : List Char → Option (List Char)
  | [] => if needle.isEmpty then some [] else none
  | c :: cs =>
    if startsWithL needle (c :: cs) then some (c :: cs) else findSub needle cs

/-- C `strchr`: the suffix beginning at the first occurrence of `c`, or
`none` when `c` does not occur before the terminating NUL. -/
def findChar (c : Char) : List Char → Option (List Char)
  | [] => none
  | d :: ds => if d == c then some (d :: ds) else findChar c ds

/-- C `isspace` on the default locale's whitespace set. -/
def isspaceC (c : Char) : Bool :=
  c == ' ' || c == '\t' || c == '\n' || c == '\x0b' || c == '\x0c' || c == '\r'

/-- The value-copying loop of `extract_json_string`: copy at most `n`
characters, stopping early at a closing quote or the end of the buffer. -/
def takeUntilQuote : Nat → List Char → List Char
  | 0, _ => []
  | _, [] => []
  | n + 1, c :: cs => if c == '"' then [] else c :: takeUntilQuote n cs

/-- `extract_json_string(json, key, out, out_size)` from main.c: find the
quoted key, then a colon, skip whitespace, and require a quoted string
value, copying at most `out_size - 1` characters of it.  The negative
return codes of the C function become `Except.error` values. -/
def extract_json_string (json key : List Char) (outSize : Nat) :
    Except Int (List Char) :=
  let search := '"' :: (key ++ ['"'])
  match findSub search json with
  | none => .error (-1)
  | some p =>
    match findChar ':' (p.drop search.length) with
    | none => .error (-2)
    | some q =>
      match (q.drop 1).dropWhile isspaceC with
      | '"' :: rest => .ok (takeUntilQuote (outSize - 1) rest)
      | _ => .error (-3)

/-- `fix_application_drm_type` from main.c, as a transformation of the
manifest file's content (`none` = file missing / unopenable).  When the
`"applicationDrmType"` value is a quoted string other than `"standard"`,
the file is rewritten in place with `fwrite` of the new text and no
truncation, so when the replacement is shorter than the original the old
tail bytes survive past it. -/
def fix_application_drm_type (content : Option (List Char)) :
    Option (List Char) :=
  match content with
  | none => none
  | some buf =>
    if buf.length = 0 || buf.length > 5 * 1024 * 1024 then some buf
    else
      let key := ("\"applicationDrmType\"").toList
      match findSub key buf with
      | none => some buf
      | some p =>
        match findChar ':' (p.drop key.length) with
        | none => some buf
        | some colonSuffix =>
          match findChar '"' colonSuffix with
          | none => some buf
          | some q1s =>
            match findChar '"' (q1s.drop 1) with
            | none => some buf
            | some q2s =>
              if (q1s.drop 1).length - q2s.length = 8 &&
                  startsWithL ("standard".toList) (q1s.drop 1) then some buf
              else
                let q1pos := buf.length - q1s.length
                let newContent :=
                  buf.take (q1pos + 1) ++ ("standard".toList) ++ q2s
                some (newContent ++ buf.drop newContent.length)

/-- The id lookup of `get_game_info`: try `"titleId"`, then `"title_id"`,
each into a `MAX_TITLE_ID`-sized buffer. -/
def lookupTitleId (buf : List Char) : Option (List Char) :=
  match extract_json_string buf ("titleId".toList) MAX_TITLE_ID with
  | .ok v => some v
  | .error _ =>
    match extract_json_string buf ("title_id".toList) MAX_TITLE_ID with
    | .ok v => some v
    | .error _ => none

/-- The display-name lookup of `get_game_info`: `"titleName"` searched from
the first occurrence of `"en-US"` (or from the start of the buffer when
there is none), then `"titleName"` from the start of the buffer.  When
both lookups fail the C code leaves the caller's `out_name` buffer
untouched, so the result is the buffer's prior content `nb`; when the
resulting name is empty the title id is copied in instead. -/
def pickName (buf id nb : List Char) : List Char :=
  let searchStart :=
    match findSub (("\"en-US\"").toList) buf with
    | some s => s
    | none => buf
  let n1 :=
    match extract_json_string searchStart ("titleName".toList) MAX_TITLE_NAME with
    | .ok v => v
    | .error _ =>
      match extract_json_string buf ("titleName".toList) MAX_TITLE_NAME with
      | .ok v => v
      | .error _ => nb
  if n1.length = 0 then id else n1

/-- `get_game_info` from main.c on the manifest's content (`raw`, `none` =
file missing).  `nb` is the prior content of the caller's uninitialized
`out_name` stack buffer, which the C code consults via `strlen` when both
name lookups fail.  The drm-type repair runs first and the extraction
reads the repaired content. -/
def get_game_info (raw : Option (List Char)) (nb : List Char) :
    Option (String × String) :=
  match fix_application_drm_type raw with
  | none => none
  | some buf =>
    if buf.length = 0 then none
    else
      match lookupTitleId buf with
      | none => none
      | some id => some (String.mk id, String.mk (pickName buf id nb))

example :
    get_game_info (some ("\x7b\"titleId\":\"CUSA00001\"\x7d".toList)) [] =
      some ("CUSA00001", "CUSA00001") := by decide

example :
    get_game_info (some ("\x7b\"titleId\":\"CUSA00001\"\x7d".toList)) ['X'] =
      some ("CUSA00001", "X") := by decide

example : get_game_info (some ("\x7b\"titleId\":1\x7d".toList)) [] = none := by
  decide

/-- Abstract file system, as the query functions the daemon performs.
`pathExists` is `stat`/`access` success, `listDir` is
`opendir`/`readdir` (hidden entries not yet filtered; `none` = unreadable
or missing root), `readFile` is a whole-file read (`none` = missing),
`mtime` is `st_mtime` in seconds and `now` is `time(NULL)`. -/
structure FS where
  pathExists : String → Bool
  listDir : String → Option (List String)
  readFile : String → Option (List Char)
  mtime : String → Option Int
  now : Int

/-- `is_installed` from main.c: `stat("/user/app/<id>")` succeeds. -/
def is_installed (fs : FS) (title_id : String) : Bool :=
  fs.pathExists ("/user/app/" ++ title_id)

/-- `is_data_mounted` from main.c:
`access("/system_ex/app/<id>/sce_sys/param.json", F_OK)` succeeds. -/
def is_data_mounted (fs : FS) (title_id : String) : Bool :=
  fs.pathExists ("/system_ex/app/" ++ title_id ++ "/sce_sys/param.json")

/-- The manifest path `get_game_info` reads under a candidate directory. -/
def manifestPath (base : String) : String := base ++ "/sce_sys/param.json"

/-- `wait_for_stability_fast` from main.c.  Result: the returned `bool`
together with the microseconds slept (`sceKernelUsleep(2000000)` happens
exactly on the fall-through path that logs and reports unstable; a failed
`stat` of the directory itself returns false without sleeping).
`difftime(now, mtime) > 10.0` on integral times is `now - mtime > 10`. -/
def wait_for_stability_fast (fs : FS) (path : String) : Bool × Option Nat :=
  match fs.mtime path with
  | none => (false, none)
  | some m =>
    if fs.now - m > 10 then
      match fs.mtime (path ++ "/sce_sys") with
      | some ms =>
        if fs.now - ms > 10 then (true, none) else (false, some 2000000)
      | none => (true, none)
    else (false, some 2000000)

/-- One slot of the global `struct GameCache cache[MAX_PENDING]`. -/
structure GameCache where
  path : String
  title_id : String
  title_name : String
  valid : Bool
deriving DecidableEq

/-- A zeroed cache slot (C globals are zero-initialized). -/
def blankSlot : GameCache := ⟨"", "", "", false⟩

/-- The daemon's cache at program start: all `MAX_PENDING` slots invalid. -/
def emptyCache : List GameCache := List.replicate MAX_PENDING blankSlot

/-- The `already_seen` linear probe both loops run over the cache. -/
def seenCache (cache : List GameCache) (p : String) : Bool :=
  cache.any (fun c => c.valid && c.path == p)

/-- The record step of `scan_all_paths`: claim the first invalid slot for
the candidate; when every slot is valid nothing is written. -/
def recordEntry (p id nm : String) : List GameCache → List GameCache
  | [] => []
  | c :: cs =>
    if c.valid then c :: recordEntry p id nm cs else ⟨p, id, nm, true⟩ :: cs

/-- The cache cleaner at the top of `scan_all_paths`: a valid slot whose
path no longer exists is invalidated. -/
def cleanCache (fs : FS) (cache : List GameCache) : List GameCache :=
  cache.map (fun c =>
    if c.valid && !(fs.pathExists c.path) then
      { c with valid := false }
    else c)

/-- One `mount_and_install(full_path, title_id, title_name, is_remount)`
invocation performed by `scan_all_paths`. -/
structure InstallCall where
  path : String
  title_id : String
  title_name : String
  is_remount : Bool
deriving DecidableEq

/-- State threaded through one `scan_all_paths` cycle: the cache plus the
sequence of installer invocations made so far. -/
structure ScanResult where
  cache : List GameCache
  installs : List InstallCall
deriving DecidableEq

/-- `entry->d_name[0] == '.'`. -/
def isHidden (e : String) : Bool :=
  match e.toList with
  | [] => false
  | c :: _ => c == '.'

/-- The body of the `readdir` loop in `scan_all_paths` for one directory
entry: skip hidden names, skip paths already in the cache, extract
metadata (skipping the entry when that fails), record the candidate in
the first free cache slot, skip titles that are both registered and
data-mounted, and otherwise invoke the installer — directly for a
remount, and only after the fast stability gate for a fresh install.
`nb` is the prior content of the uninitialized `title_name` buffer. -/
def processEntry (fs : FS) (nb : List Char) (root e : String)
    (st : ScanResult) : ScanResult :=
  if isHidden e then st
  else if seenCache st.cache (root ++ "/" ++ e) then st
  else
    match get_game_info (fs.readFile (manifestPath (root ++ "/" ++ e))) nb with
    | none => st
    | some (id, nm) =>
      if is_installed fs id && is_data_mounted fs id then
        ⟨recordEntry (root ++ "/" ++ e) id nm st.cache, st.installs⟩
      else if is_installed fs id then
        ⟨recordEntry (root ++ "/" ++ e) id nm st.cache,
         st.installs ++ [⟨root ++ "/" ++ e, id, nm, true⟩]⟩
      else if (wait_for_stability_fast fs (root ++ "/" ++ e)).1 then
        ⟨recordEntry (root ++ "/" ++ e) id nm st.cache,
         st.installs ++ [⟨root ++ "/" ++ e, id, nm, false⟩]⟩
      else ⟨recordEntry (root ++ "/" ++ e) id nm st.cache, st.installs⟩

/-- One root's portion of `scan_all_paths`: unreadable roots are skipped. -/
def scanRoot (fs : FS) (nb : List Char) (st : ScanResult) (root : String) :
    ScanResult :=
  match fs.listDir root with
  | none => st
  | some es => es.foldl (fun s e => processEntry fs nb root e s) st

/-- `scan_all_paths` from main.c: sweep the cache, then walk every scan
root in order. -/
def scan_all_paths (fs : FS) (nb : List Char) (cache0 : List GameCache) :
    ScanResult :=
  SCAN_PATHS.foldl (scanRoot fs nb) ⟨cleanCache fs cache0, []⟩

/-- The body of the `readdir` loop in `count_new_candidates` for one
entry: skip hidden names, skip entries without metadata, skip titles both
registered and data-mounted, skip paths already in the cache, and count
the rest.  The cache is only read. -/
def countEntry (fs : FS) (nb : List Char) (root e : String)
    (st : Nat × List GameCache) : Nat × List GameCache :=
  if isHidden e then st
  else
    match get_game_info (fs.readFile (manifestPath (root ++ "/" ++ e))) nb with
    | none => st
    | some (id, _) =>
      if is_installed fs id && is_data_mounted fs id then st
      else if seenCache st.2 (root ++ "/" ++ e) then st
      else (st.1 + 1, st.2)

/-- One root's portion of `count_new_candidates`. -/
def countRoot (fs : FS) (nb : List Char) (st : Nat × List GameCache)
    (root : String) : Nat × List GameCache :=
  match fs.listDir root with
  | none => st
  | some es => es.foldl (fun s e => countEntry fs nb root e s) st

/-- `count_new_candidates` from main.c, threading the global cache it
reads through explicitly. -/
def count_new_candidates (fs : FS) (nb : List Char)
    (cache : List GameCache) : Nat × List GameCache :=
  SCAN_PATHS.foldl (countRoot fs nb) (0, cache)

/-- One side-effecting operation attempted by `mount_and_install`, in
order.  The copy events carry the operation's outcome, which the C code
never inspects; the other events are the calls as issued. -/
inductive FsEvent where
  | mkdirEv (p : String)
  | remountSystemExEv
  | unmountEv (p : String)
  | mountNullfsEv (src dst : String)
  | copyDirEv (src dst : String) (ok : Bool)
  | copyFileEv (src dst : String) (ok : Bool)
  | writeLnkEv (p content : String)
  | registerEv (id : String) (status : Nat)
  | toastEv (id nm msg : String)
  | removeEv (p : String)
deriving DecidableEq

/-- Outcomes of the external operations `mount_and_install` invokes:
whether `mount_nullfs` succeeds, whether the recursive asset copy and the
icon copy fully succeed, and the status `sceAppInstUtilAppInstallTitleDir`
returns (as a 32-bit value). -/
structure InstallEnv where
  mountOk : Bool
  copyDirOk : Bool
  copyFileOk : Bool
  registerStatus : Nat
deriving DecidableEq

/-- `mount_and_install` from main.c as (result, trace of side-effecting
operations, in program order): make and stale-unmount the mount point,
nullfs-mount the source (failure returns false with nothing further); on
a fresh install copy the `sce_sys` subtree and the icon, their results
ignored; write the `mount.lnk` marker; register; a status of 0 is a new
install (with toast), `0x80990002` is a silent restore, and any other
status returns false. -/
def mount_and_install (env : InstallEnv)
    (src_path title_id title_name : String) (is_remount : Bool) :
    Bool × List FsEvent :=
  let sysExApp := "/system_ex/app/" ++ title_id
  let pre : List FsEvent :=
    [.mkdirEv sysExApp, .remountSystemExEv, .unmountEv sysExApp,
     .mountNullfsEv src_path sysExApp]
  if !env.mountOk then (false, pre)
  else
    let userAppDir := "/user/app/" ++ title_id
    let copyEvs : List FsEvent :=
      if is_remount then []
      else
        [.mkdirEv userAppDir, .mkdirEv (userAppDir ++ "/sce_sys"),
         .copyDirEv (src_path ++ "/sce_sys") (userAppDir ++ "/sce_sys")
           env.copyDirOk,
         .copyFileEv (src_path ++ "/sce_sys/icon0.png")
           (userAppDir ++ "/icon0.png") env.copyFileOk]
    let evs := pre ++ copyEvs ++
      [.writeLnkEv (userAppDir ++ "/mount.lnk") src_path,
       .registerEv title_id env.registerStatus]
    if env.registerStatus = 0 then
      (true, evs ++ [.toastEv title_id title_name "Installed"])
    else if env.registerStatus = 0x80990002 then (true, evs)
    else (false, evs)

/-- Does an event remove a path (the only way main.c ever deletes
anything)? -/
def isRemoveEv : FsEvent → Bool
  | .removeEv _ => true
  | _ => false

/-- Result of `open(LOCK_FILE, O_CREAT | O_EXCL | O_RDWR, 0666)`. -/
inductive OpenLockResult where
  | opened
  | eexist
  | otherErr
deriving DecidableEq

/-- One observable step of `main` in main.c and of the kill tool. -/
inductive MainEvent where
  | svcInitEv
  | appInstInitEv
  | setAuthIdEv
  | removeEv (p : String)
  | mkdirEv (p : String)
  | logEv (s : String)
  | notifyReadyEv
  | notifyFoundEv (n : Nat)
  | notifyDoneEv
  | scanEv
  | openLockEv
  | sleepEv (us : Nat)
  | createFileEv (p content : String)
  | notifyEv (s : String)
deriving DecidableEq

/-- Environment for one run of `main`'s startup sequence. -/
structure MainEnv where
  fs : FS
  nb : List Char
  openLock : OpenLockResult

/-- The startup sequence of `main` in main.c up to entry into the daemon
loop: service init, `remove(LOCK_FILE)`, `remove(LOG_FILE)`,
`mkdir(LOG_DIR)`, the banner log line, the candidate count over the
zero-initialized cache, the notification (plus an immediate scan when the
count is nonzero), and only then the `O_CREAT | O_EXCL` open of the lock
file.  Result: `some code` when `main` returns `code` there
(`lock < 0 && errno == EEXIST`), `none` when it proceeds into the daemon
loop — which it also does when the open failed with any other error. -/
def main_startup (env : MainEnv) : Option Nat × List MainEvent :=
  let pre : List MainEvent :=
    [.svcInitEv, .appInstInitEv, .setAuthIdEv, .removeEv LOCK_FILE,
     .removeEv LOG_FILE, .mkdirEv LOG_DIR, .logEv "SHADOWMOUNT v1.3 START"]
  let n := (count_new_candidates env.fs env.nb emptyCache).1
  let work : List MainEvent :=
    if n = 0 then [.notifyReadyEv]
    else [.notifyFoundEv n, .scanEv, .notifyDoneEv]
  let evs := pre ++ work ++ [.openLockEv]
  match env.openLock with
  | .eexist => (some 0, evs)
  | _ => (none, evs)

/-- One iteration of the daemon loop in `main`: when the kill sentinel
`KILL_FILE` exists, remove it and the lock file and return exit code 0;
otherwise sleep the poll interval and scan. -/
def daemon_loop_iteration (fs : FS) : Option Nat × List MainEvent :=
  if fs.pathExists KILL_FILE then
    (some 0, [.removeEv KILL_FILE, .removeEv LOCK_FILE])
  else (none, [.sleepEv SCAN_INTERVAL_US, .scanEv])

/-- The marker file the companion tool kill.c creates. -/
def kill_tool_marker_path : String := "/data/shadowmount.kill"

/-- `main` of kill.c: create the marker file (content "DIE") and notify;
on open failure, notify an error instead. -/
def kill_tool_run (openOk : Bool) : List MainEvent :=
  if openOk then
    [.createFileEv kill_tool_marker_path "DIE",
     .notifyEv "ShadowMount: Kill Signal Sent!"]
  else [.notifyEv "Error: Could not create kill file!"]

/-- The caller-side skip predicate of `scan_all_paths` for a path: either
its metadata does not extract, or its title id is both registered and
data-mounted. -/
def skipPerfect (fs : FS) (nb : List Char) (p : String) : Bool :=
  match get_game_info (fs.readFile (manifestPath p)) nb with
  | none => true
  | some (id, _) => is_installed fs id && is_data_mounted fs id

/-- A predicate preserved by every step of a left fold holds of the
fold's result. -/
theorem foldl_pres {α β : Type} (f : β → α → β) (P : β → Prop)
    (h : ∀ b a, P b → P (f b a)) (l : List α) :
    ∀ b, P b → P (l.foldl f b) := by
  induction l with
  | nil => intro b hb; exact hb
  | cons a as ih => intro b hb; exact ih (f b a) (h b a hb)

/-- A predicate preserved by `processEntry` holds of a whole scan cycle's
result once it holds of the swept initial state. -/
theorem scan_inv (fs : FS) (nb : List Char) (P : ScanResult → Prop)
    (hstep : ∀ root e st, P st → P (processEntry fs nb root e st))
    (cache0 : List GameCache) (hinit : P ⟨cleanCache fs cache0, []⟩) :
    P (scan_all_paths fs nb cache0) := by
  unfold scan_all_paths
  refine foldl_pres (scanRoot fs nb) P ?_ SCAN_PATHS _ hinit
  intro st root hst
  unfold scanRoot
  cases h : fs.listDir root with
  | none => exact hst
  | some es =>
    exact foldl_pres _ P (fun b a hb => hstep root a b hb) es st hst

/-- `countEntry` never writes to the cache component. -/
theorem countEntry_snd (fs : FS) (nb : List Char) (root e : String)
    (st : Nat × List GameCache) : (countEntry fs nb root e st).2 = st.2 := by
  unfold countEntry
  split
  · rfl
  · split
    · rfl
    · split
      · rfl
      · split
        · rfl
        · rfl

/-- C10: the startup candidate count only reads the dedup cache: for
every file system, stale buffer content and cache, `count_new_candidates`
returns the cache it was given unchanged, so counting a candidate never
marks it as seen for later scan cycles. -/
theorem count_new_candidates_preserves_cache (fs : FS) (nb : List Char)
    (cache : List GameCache) : (count_new_candidates fs nb cache).2 = cache := by
  unfold count_new_candidates
  refine foldl_pres (countRoot fs nb) (fun st => st.2 = cache) ?_ SCAN_PATHS
    (0, cache) rfl
  intro st root hst
  unfold countRoot
  cases h : fs.listDir root with
  | none => exact hst
  | some es =>
    refine foldl_pres _ (fun st2 => st2.2 = cache) ?_ es st hst
    intro b e hb
    rw [countEntry_snd]
    exact hb

/-- C7: for a readable candidate directory (its `stat` yields a
modification time), the fast stability check reports stable exactly when
the directory's mtime is more than 10 seconds old and its `sce_sys`
subdirectory is absent or itself more than 10 seconds old; in every other
case it sleeps 2 seconds (2000000 us) and reports unstable. -/
theorem stability_fast_characterization (fs : FS) (p : String) (m : Int)
    (h : fs.mtime p = some m) :
    ((wait_for_stability_fast fs p).1 = true ↔
      (fs.now - m > 10 ∧ (fs.mtime (p ++ "/sce_sys") = none ∨
        ∃ ms, fs.mtime (p ++ "/sce_sys") = some ms ∧ fs.now - ms > 10))) ∧
    (wait_for_stability_fast fs p).2 =
      (if (wait_for_stability_fast fs p).1 = true then none
       else some 2000000) := by
  unfold wait_for_stability_fast
  rw [h]
  rcases h2 : fs.mtime (p ++ "/sce_sys") with _ | ms
  · by_cases hd : fs.now - m > 10
    · simp [hd, h2]
    · simp [hd, h2]
  · by_cases hd : fs.now - m > 10
    · by_cases hs : fs.now - ms > 10
      · simp [hd, h2, hs]
      · simp [hd, h2, hs]
    · simp [hd, h2]

/-- Concrete file system for the C7 witness: one directory modified 100
seconds ago, with no `sce_sys` entry. -/
def fs7w : FS :=
  ⟨fun _ => false, fun _ => none, fun _ => none,
   fun q => if q == "/g" then some 0 else none, 100⟩

/-- C7 witness: the characterization applied to `fs7w` and `"/g"`. -/
theorem stability_fast_characterization_w :
    fs7w.mtime "/g" = some 0 ∧
    (((wait_for_stability_fast fs7w "/g").1 = true ↔
      (fs7w.now - 0 > 10 ∧ (fs7w.mtime ("/g" ++ "/sce_sys") = none ∨
        ∃ ms, fs7w.mtime ("/g" ++ "/sce_sys") = some ms ∧
          fs7w.now - ms > 10))) ∧
    (wait_for_stability_fast fs7w "/g").2 =
      (if (wait_for_stability_fast fs7w "/g").1 = true then none
       else some 2000000)) :=
  ⟨by decide, stability_fast_characterization fs7w "/g" 0 (by decide)⟩

/-- File system as it stands right after the kill tool ran: only the
tool's marker file exists. -/
def fsAfterKill : FS :=
  ⟨fun p => p == kill_tool_marker_path, fun _ => none, fun _ => none,
   fun _ => none, 0⟩

/-- C4: the kill tool creates its marker at `/data/shadowmount.kill`, the
daemon polls `KILL_FILE = /data/shadowmount/STOP` — a different path — so
a loop iteration run right after the kill tool neither removes the marker
nor exits: it just sleeps and scans again. -/
theorem kill_marker_never_observed :
    kill_tool_run true =
      [MainEvent.createFileEv "/data/shadowmount.kill" "DIE",
       MainEvent.notifyEv "ShadowMount: Kill Signal Sent!"] ∧
    kill_tool_marker_path ≠ KILL_FILE ∧
    fsAfterKill.pathExists kill_tool_marker_path = true ∧
    daemon_loop_iteration fsAfterKill =
      (none, [MainEvent.sleepEv 3000000, MainEvent.scanEv]) := by decide

/-- C3 amended: `main` exits with code 0 exactly when the `O_EXCL` lock
open fails with `EEXIST`, never exits with code 1 (any other open failure
falls through into the daemon loop), and in every run — the contended one
included — it has already removed the lock file (and done the rest of its
startup work) before the lock is attempted. -/
theorem main_lock_after_side_effects (env : MainEnv) :
    ((main_startup env).1 = some 0 ↔ env.openLock = OpenLockResult.eexist) ∧
    (main_startup env).1 ≠ some 1 ∧
    MainEvent.removeEv LOCK_FILE ∈ (main_startup env).2 := by
  unfold main_startup
  cases h : env.openLock <;> simp [List.mem_append]

/-- A file system with nothing in it. -/
def fsTrivial : FS :=
  ⟨fun _ => false, fun _ => none, fun _ => none, fun _ => none, 0⟩

/-- Startup environment of a second instance: the lock open fails with
`EEXIST`. -/
def envEexist : MainEnv := ⟨fsTrivial, [], .eexist⟩

/-- Startup environment where the lock open fails with some other
errno. -/
def envOtherErr : MainEnv := ⟨fsTrivial, [], .otherErr⟩

/-- C3 counterexample: a second instance does exit 0, but only after
side effects — it has already removed the running peer's lock file and
notified; and an unrecoverable (non-`EEXIST`) lock failure does not exit
with code 1: the daemon loop is entered anyway. -/
theorem main_second_instance_not_silent :
    (main_startup envEexist).1 = some 0 ∧
    MainEvent.removeEv LOCK_FILE ∈ (main_startup envEexist).2 ∧
    MainEvent.notifyReadyEv ∈ (main_startup envEexist).2 ∧
    (main_startup envOtherErr).1 = none := by decide

/-- C1 amended: when the mount succeeds and registration returns any
nonzero status other than `0x80990002`, a fresh-install
`mount_and_install` reports failure but performs no cleanup: its exact
operation trace ends at the registration call — the only unmount in it is
the stale-unmount issued before mounting, and it contains no remove of
the installation directory or the link marker; the asset-copy outcomes
appear in the trace but never influence it (the code ignores them). -/
theorem mount_and_install_failure_no_cleanup (env : InstallEnv)
    (src id nm : String) (hm : env.mountOk = true)
    (h0 : env.registerStatus ≠ 0) (h2 : env.registerStatus ≠ 0x80990002) :
    mount_and_install env src id nm false =
      (false,
       [FsEvent.mkdirEv ("/system_ex/app/" ++ id), FsEvent.remountSystemExEv,
        FsEvent.unmountEv ("/system_ex/app/" ++ id),
        FsEvent.mountNullfsEv src ("/system_ex/app/" ++ id),
        FsEvent.mkdirEv ("/user/app/" ++ id),
        FsEvent.mkdirEv ("/user/app/" ++ id ++ "/sce_sys"),
        FsEvent.copyDirEv (src ++ "/sce_sys") ("/user/app/" ++ id ++ "/sce_sys")
          env.copyDirOk,
        FsEvent.copyFileEv (src ++ "/sce_sys/icon0.png")
          ("/user/app/" ++ id ++ "/icon0.png") env.copyFileOk,
        FsEvent.writeLnkEv ("/user/app/" ++ id ++ "/mount.lnk") src,
        FsEvent.registerEv id env.registerStatus]) ∧
    (mount_and_install env src id nm false).2.all
      (fun ev => !isRemoveEv ev) = true := by
  unfold mount_and_install
  simp [hm, h0, h2, isRemoveEv]

/-- Installer environment where registration fails with a status other
than "already registered". -/
def envRegFail : InstallEnv := ⟨true, true, true, 0x80990005⟩

/-- Installer environment where the asset copy partially fails but
registration reports success. -/
def envCopyFail : InstallEnv := ⟨true, false, false, 0⟩

/-- C1 witness: the no-cleanup characterization applied to `envRegFail`
and a concrete candidate. -/
theorem mount_and_install_failure_no_cleanup_w :
    envRegFail.mountOk = true ∧ envRegFail.registerStatus ≠ 0 ∧
    envRegFail.registerStatus ≠ 0x80990002 ∧
    (mount_and_install envRegFail "/data/homebrew/G" "CUSA00003" "G" false =
      (false,
       [FsEvent.mkdirEv ("/system_ex/app/" ++ "CUSA00003"),
        FsEvent.remountSystemExEv,
        FsEvent.unmountEv ("/system_ex/app/" ++ "CUSA00003"),
        FsEvent.mountNullfsEv "/data/homebrew/G"
          ("/system_ex/app/" ++ "CUSA00003"),
        FsEvent.mkdirEv ("/user/app/" ++ "CUSA00003"),
        FsEvent.mkdirEv ("/user/app/" ++ "CUSA00003" ++ "/sce_sys"),
        FsEvent.copyDirEv ("/data/homebrew/G" ++ "/sce_sys")
          ("/user/app/" ++ "CUSA00003" ++ "/sce_sys") envRegFail.copyDirOk,
        FsEvent.copyFileEv ("/data/homebrew/G" ++ "/sce_sys/icon0.png")
          ("/user/app/" ++ "CUSA00003" ++ "/icon0.png") envRegFail.copyFileOk,
        FsEvent.writeLnkEv ("/user/app/" ++ "CUSA00003" ++ "/mount.lnk")
          "/data/homebrew/G",
        FsEvent.registerEv "CUSA00003" envRegFail.registerStatus]) ∧
     (mount_and_install envRegFail "/data/homebrew/G" "CUSA00003" "G"
        false).2.all (fun ev => !isRemoveEv ev) = true) :=
  ⟨rfl, by decide, by decide,
   mount_and_install_failure_no_cleanup envRegFail "/data/homebrew/G"
     "CUSA00003" "G" rfl (by decide) (by decide)⟩

/-- C1 counterexample: with the registration service rejecting
(`0x80990005`), `mount_and_install` returns failure with a trace that
unmounts nothing after the mount and removes nothing at all — no
rollback of the installation directory or link marker; and with a
partially failed asset copy (`envCopyFail`), it does not even fail: it
reports success (`true`) and again removes nothing, leaving the
partially populated installation directory in place. -/
theorem mount_and_install_no_rollback_cex :
    mount_and_install envRegFail "/data/homebrew/G" "CUSA00004" "G" false =
      (false,
       [FsEvent.mkdirEv "/system_ex/app/CUSA00004", FsEvent.remountSystemExEv,
        FsEvent.unmountEv "/system_ex/app/CUSA00004",
        FsEvent.mountNullfsEv "/data/homebrew/G" "/system_ex/app/CUSA00004",
        FsEvent.mkdirEv "/user/app/CUSA00004",
        FsEvent.mkdirEv "/user/app/CUSA00004/sce_sys",
        FsEvent.copyDirEv "/data/homebrew/G/sce_sys"
          "/user/app/CUSA00004/sce_sys" true,
        FsEvent.copyFileEv "/data/homebrew/G/sce_sys/icon0.png"
          "/user/app/CUSA00004/icon0.png" true,
        FsEvent.writeLnkEv "/user/app/CUSA00004/mount.lnk" "/data/homebrew/G",
        FsEvent.registerEv "CUSA00004" 0x80990005]) ∧
    mount_and_install envCopyFail "/data/homebrew/G" "CUSA00004" "G" false =
      (true,
       [FsEvent.mkdirEv "/system_ex/app/CUSA00004", FsEvent.remountSystemExEv,
        FsEvent.unmountEv "/system_ex/app/CUSA00004",
        FsEvent.mountNullfsEv "/data/homebrew/G" "/system_ex/app/CUSA00004",
        FsEvent.mkdirEv "/user/app/CUSA00004",
        FsEvent.mkdirEv "/user/app/CUSA00004/sce_sys",
        FsEvent.copyDirEv "/data/homebrew/G/sce_sys"
          "/user/app/CUSA00004/sce_sys" false,
        FsEvent.copyFileEv "/data/homebrew/G/sce_sys/icon0.png"
          "/user/app/CUSA00004/icon0.png" false,
        FsEvent.writeLnkEv "/user/app/CUSA00004/mount.lnk" "/data/homebrew/G",
        FsEvent.registerEv "CUSA00004" 0,
        FsEvent.toastEv "CUSA00004" "G" "Installed"]) := by decide

theorem seenCache_cons (c : GameCache) (cs : List GameCache) (p : String) :
    seenCache (c :: cs) p = ((c.valid && c.path == p) || seenCache cs p) := by
  simp [seenCache]

theorem cleanCache_cons (fs : FS) (c : GameCache) (cs : List GameCache) :
    cleanCache fs (c :: cs) =
      (if c.valid && !(fs.pathExists c.path) then { c with valid := false }
       else c) :: cleanCache fs cs := by
  simp [cleanCache]

/-- Recording a candidate never removes an existing valid cache entry, so
paths already seen stay seen. -/
theorem seen_record (q id nm p : String) (cache : List GameCache)
    (h : seenCache cache p = true) :
    seenCache (recordEntry q id nm cache) p = true := by
  induction cache with
  | nil => simp [seenCache] at h
  | cons c cs ih =>
    rw [seenCache_cons, Bool.or_eq_true] at h
    by_cases hv : c.valid = true
    · rw [recordEntry, if_pos hv, seenCache_cons, Bool.or_eq_true]
      rcases h with h1 | h1
      · exact Or.inl h1
      · exact Or.inr (ih h1)
    · rw [recordEntry, if_neg hv, seenCache_cons, Bool.or_eq_true]
      rcases h with h1 | h1
      · rw [Bool.and_eq_true] at h1
        exact absurd h1.1 hv
      · exact Or.inr h1

/-- The cache sweep keeps an entry for a path that still exists, so such
a path stays seen. -/
theorem seen_clean (fs : FS) (cache : List GameCache) (p : String)
    (hex : fs.pathExists p = true) (h : seenCache cache p = true) :
    seenCache (cleanCache fs cache) p = true := by
  induction cache with
  | nil => simp [seenCache] at h
  | cons c cs ih =>
    rw [seenCache_cons, Bool.or_eq_true] at h
    rw [cleanCache_cons, seenCache_cons, Bool.or_eq_true]
    rcases h with h1 | h1
    · have h1' := h1
      rw [Bool.and_eq_true] at h1'
      have hpath : c.path = p := by simpa using h1'.2
      have hcond : (c.valid && !(fs.pathExists c.path)) = false := by
        rw [hpath, hex]
        simp
      rw [if_neg (by simp [hcond])]
      exact Or.inl h1
    · exact Or.inr (ih h1)

/-- When `skipPerfect` holds of `p`, one scan-loop step never invokes the
installer for `p`. -/
theorem processEntry_no_call (fs : FS) (nb : List Char) (p root e : String)
    (st : ScanResult) (hperf : skipPerfect fs nb p = true)
    (hst : ∀ c ∈ st.installs, c.path ≠ p) :
    ∀ c ∈ (processEntry fs nb root e st).installs, c.path ≠ p := by
  intro c hc
  unfold processEntry at hc
  split at hc
  · exact hst c hc
  · split at hc
    · exact hst c hc
    · split at hc
      · exact hst c hc
      next id nm heq =>
        by_cases hfp : root ++ "/" ++ e = p
        · have hperf2 : (is_installed fs id && is_data_mounted fs id) = true := by
            unfold skipPerfect at hperf
            rw [← hfp] at hperf
            rw [heq] at hperf
            exact hperf
          rw [if_pos hperf2] at hc
          exact hst c hc
        · split at hc
          · exact hst c hc
          · split at hc
            · rcases List.mem_append.mp hc with h1 | h1
              · exact hst c h1
              · have hcall : c = ⟨root ++ "/" ++ e, id, nm, true⟩ := by
                  simpa using h1
                rw [hcall]
                exact hfp
            · split at hc
              · rcases List.mem_append.mp hc with h1 | h1
                · exact hst c h1
                · have hcall : c = ⟨root ++ "/" ++ e, id, nm, false⟩ := by
                    simpa using h1
                  rw [hcall]
                  exact hfp
              · exact hst c hc

/-- No scan cycle ever invokes the installer for a path the skip
predicate covers. -/
theorem scan_skips_when_perfect (fs : FS) (nb : List Char) (p : String)
    (h : skipPerfect fs nb p = true) (cache0 : List GameCache) :
    ∀ c ∈ (scan_all_paths fs nb cache0).installs, c.path ≠ p :=
  scan_inv fs nb (fun st => ∀ c ∈ st.installs, c.path ≠ p)
    (fun root e st hst => processEntry_no_call fs nb p root e st h hst)
    cache0 (by simp)

/-- C5: for a candidate path whose title id is registered and
data-mounted (whenever its metadata extracts), a scan cycle never
invokes `mount_and_install` for it — and across two consecutive cycles
(the second running on the first cycle's cache) the installer is invoked
zero times for that path. -/
theorem perfect_title_never_installed (fs1 fs2 : FS) (nb1 nb2 : List Char)
    (cache0 : List GameCache) (p : String)
    (h1 : skipPerfect fs1 nb1 p = true) (h2 : skipPerfect fs2 nb2 p = true) :
    (∀ c ∈ (scan_all_paths fs1 nb1 cache0).installs, c.path ≠ p) ∧
    (∀ c ∈ (scan_all_paths fs2 nb2
        (scan_all_paths fs1 nb1 cache0).cache).installs, c.path ≠ p) :=
  ⟨scan_skips_when_perfect fs1 nb1 p h1 cache0,
   scan_skips_when_perfect fs2 nb2 p h2 _⟩

/-- Manifest of a title that is already installed and mounted. -/
def manifestP : List Char := "\x7b\"titleId\":\"CUSA00777\"\x7d".toList

/-- File system with one candidate whose title id is registered
(`/user/app/CUSA00777` exists) and data-mounted. -/
def fsPerfect : FS :=
  ⟨fun p => p == "/user/app/CUSA00777" ||
    p == "/system_ex/app/CUSA00777/sce_sys/param.json" ||
    p == "/data/homebrew/Inst",
   fun r => if r == "/data/homebrew" then some ["Inst"] else none,
   fun f => if f == "/data/homebrew/Inst/sce_sys/param.json" then
     some manifestP else none,
   fun _ => none, 0⟩

/-- C5 witness: two consecutive cycles over `fsPerfect` invoke the
installer zero times for the installed-and-mounted candidate. -/
theorem perfect_title_never_installed_w :
    skipPerfect fsPerfect [] "/data/homebrew/Inst" = true ∧
    ((∀ c ∈ (scan_all_paths fsPerfect [] []).installs,
        c.path ≠ "/data/homebrew/Inst") ∧
     (∀ c ∈ (scan_all_paths fsPerfect []
        (scan_all_paths fsPerfect [] []).cache).installs,
        c.path ≠ "/data/homebrew/Inst")) :=
  ⟨by decide,
   perfect_title_never_installed fsPerfect fsPerfect [] [] []
     "/data/homebrew/Inst" (by decide) (by decide)⟩

/-- One scan-loop step preserves "p is seen in the cache and was never
handed to the installer". -/
theorem processEntry_seen_inv (fs : FS) (nb : List Char) (p root e : String)
    (st : ScanResult)
    (h : seenCache st.cache p = true ∧ ∀ c ∈ st.installs, c.path ≠ p) :
    seenCache (processEntry fs nb root e st).cache p = true ∧
    ∀ c ∈ (processEntry fs nb root e st).installs, c.path ≠ p := by
  obtain ⟨hs, hi⟩ := h
  unfold processEntry
  split
  · exact ⟨hs, hi⟩
  · split
    · exact ⟨hs, hi⟩
    next hseen =>
      split
      · exact ⟨hs, hi⟩
      next id nm heq =>
        have hfp : root ++ "/" ++ e ≠ p := by
          intro hcontra
          rw [hcontra] at hseen
          exact hseen hs
        split
        · exact ⟨seen_record _ _ _ _ _ hs, hi⟩
        · split
          · refine ⟨seen_record _ _ _ _ _ hs, ?_⟩
            intro c hc
            rcases List.mem_append.mp hc with h1 | h1
            · exact hi c h1
            · have hcall : c = ⟨root ++ "/" ++ e, id, nm, true⟩ := by
                simpa using h1
              rw [hcall]
              exact hfp
          · split
            · refine ⟨seen_record _ _ _ _ _ hs, ?_⟩
              intro c hc
              rcases List.mem_append.mp hc with h1 | h1
              · exact hi c h1
              · have hcall : c = ⟨root ++ "/" ++ e, id, nm, false⟩ := by
                  simpa using h1
                rw [hcall]
                exact hfp
            · exact ⟨seen_record _ _ _ _ _ hs, hi⟩

/-- C2 amended: there is no retry machinery — once a path has a valid
dedup-cache entry and still exists on disk, a scan cycle invokes the
installer zero times for it, whatever the outcome of the earlier attempt
was; retries are prevented by the cache entry recorded before the first
attempt, not by a retry counter, and the code has no ERROR state. -/
theorem cached_path_not_reprocessed (fs : FS) (nb : List Char)
    (cache : List GameCache) (p : String)
    (hseen : seenCache cache p = true) (hex : fs.pathExists p = true) :
    ∀ c ∈ (scan_all_paths fs nb cache).installs, c.path ≠ p :=
  (scan_inv fs nb
    (fun st => seenCache st.cache p = true ∧ ∀ c ∈ st.installs, c.path ≠ p)
    (fun root e st h => processEntry_seen_inv fs nb p root e st h)
    cache ⟨seen_clean fs cache p hex hseen, by simp⟩).2

/-- Cache holding one valid entry for a path that still exists. -/
def cacheSeenW : List GameCache := [⟨"/data/homebrew/Seen", "T", "N", true⟩]

/-- File system for the C2 witness: the cached path still exists. -/
def fsSeenW : FS :=
  ⟨fun p => p == "/data/homebrew/Seen", fun _ => none, fun _ => none,
   fun _ => none, 0⟩

/-- C2 witness: the amended no-retry property applied to a concrete
cached path. -/
theorem cached_path_not_reprocessed_w :
    seenCache cacheSeenW "/data/homebrew/Seen" = true ∧
    fsSeenW.pathExists "/data/homebrew/Seen" = true ∧
    ∀ c ∈ (scan_all_paths fsSeenW [] cacheSeenW).installs,
      c.path ≠ "/data/homebrew/Seen" :=
  ⟨by decide, by decide,
   cached_path_not_reprocessed fsSeenW [] cacheSeenW "/data/homebrew/Seen"
     (by decide) (by decide)⟩

/-- Manifest of the never-successfully-installed candidate. -/
def manifestB : List Char := "\x7b\"titleId\":\"CUSA12345\"\x7d".toList

/-- File system with one stable, uninstalled candidate; it stays exactly
like this after a failed install attempt (the title is still not
registered). -/
def fsOneGame : FS :=
  ⟨fun p => p == "/data/homebrew/MyGame",
   fun r => if r == "/data/homebrew" then some ["MyGame"] else none,
   fun f => if f == "/data/homebrew/MyGame/sce_sys/param.json" then
     some manifestB else none,
   fun q => if q == "/data/homebrew/MyGame" then some 0 else none,
   100⟩

/-- C2 counterexample: after one cycle attempts the candidate once
(install fails: the title remains unregistered and the file system is
unchanged), the next cycle performs zero further attempts — so a failing
title is never attempted the MAX_RETRIES (3) consecutive times the claim
describes and no state machine records an ERROR transition. -/
theorem failed_install_not_retried_cex :
    (scan_all_paths fsOneGame [] [blankSlot]).installs =
      [⟨"/data/homebrew/MyGame", "CUSA12345", "CUSA12345", false⟩] ∧
    is_installed fsOneGame "CUSA12345" = false ∧
    (scan_all_paths fsOneGame []
      (scan_all_paths fsOneGame [] [blankSlot]).cache).installs = [] := by
  decide

/-- When every slot is valid, `recordEntry` writes nothing. -/
theorem record_full (p id nm : String) (cache : List GameCache)
    (h : ∀ c ∈ cache, c.valid = true) : recordEntry p id nm cache = cache := by
  induction cache with
  | nil => rfl
  | cons c cs ih =>
    rw [recordEntry, if_pos (h c (List.mem_cons_self c cs))]
    rw [ih (fun b hb => h b (List.mem_cons_of_mem c hb))]

/-- C6 amended: when no invalid slot is free (every cache slot is valid),
the record step claims no slot, but the candidate is not dropped: a new,
unseen, uninstalled, stable candidate still goes to the installer in the
same cycle, with the cache left unchanged — i.e. it is installed without
a cache entry (and nothing about the drop is logged). -/
theorem full_cache_candidate_still_processed (fs : FS) (nb : List Char)
    (root e id nm : String) (cache : List GameCache) (evs : List InstallCall)
    (hvalid : ∀ c ∈ cache, c.valid = true)
    (hhid : isHidden e = false)
    (hseen : seenCache cache (root ++ "/" ++ e) = false)
    (hinfo : get_game_info (fs.readFile (manifestPath (root ++ "/" ++ e))) nb =
      some (id, nm))
    (hinst : is_installed fs id = false)
    (hstab : (wait_for_stability_fast fs (root ++ "/" ++ e)).1 = true) :
    processEntry fs nb root e ⟨cache, evs⟩ =
      ⟨cache, evs ++ [⟨root ++ "/" ++ e, id, nm, false⟩]⟩ := by
  unfold processEntry
  simp [hhid, hseen, hinfo, hinst, hstab,
    record_full (root ++ "/" ++ e) id nm cache hvalid]

/-- Manifest of the new candidate arriving while the cache is full. -/
def manifestN : List Char := "\x7b\"titleId\":\"CUSA00002\"\x7d".toList

/-- File system for the C6 scenarios: every existing cache entry backs
the path `/x` (still present), and one new stable candidate sits in
`/data/homebrew/New`. -/
def fsFullCache : FS :=
  ⟨fun p => p == "/x",
   fun r => if r == "/data/homebrew" then some ["New"] else none,
   fun f => if f == "/data/homebrew/New/sce_sys/param.json" then
     some manifestN else none,
   fun q => if q == "/data/homebrew/New" then some 0 else none,
   100⟩

/-- One valid cache slot for the C6 witness. -/
def slotX : GameCache := ⟨"/x", "A", "B", true⟩

/-- C6 witness: the amended no-drop property at a concrete all-valid
cache and candidate. -/
theorem full_cache_candidate_still_processed_w :
    (∀ c ∈ [slotX], c.valid = true) ∧
    isHidden "New" = false ∧
    seenCache [slotX] ("/data/homebrew" ++ "/" ++ "New") = false ∧
    get_game_info
      (fsFullCache.readFile (manifestPath ("/data/homebrew" ++ "/" ++ "New")))
      [] = some ("CUSA00002", "CUSA00002") ∧
    is_installed fsFullCache "CUSA00002" = false ∧
    (wait_for_stability_fast fsFullCache
      ("/data/homebrew" ++ "/" ++ "New")).1 = true ∧
    processEntry fsFullCache [] "/data/homebrew" "New" ⟨[slotX], []⟩ =
      ⟨[slotX],
       [] ++ [⟨"/data/homebrew" ++ "/" ++ "New", "CUSA00002", "CUSA00002",
          false⟩]⟩ :=
  ⟨by decide, by decide, by decide, by decide, by decide, by decide,
   full_cache_candidate_still_processed fsFullCache [] "/data/homebrew" "New"
     "CUSA00002" "CUSA00002" [slotX] [] (by decide) (by decide) (by decide)
     (by decide) (by decide) (by decide)⟩

/-- The global cache with all `MAX_PENDING` (512) slots valid. -/
def fullCache : List GameCache := List.replicate MAX_PENDING slotX

set_option maxRecDepth 100000 in
/-- C6 counterexample: with every one of the 512 slots valid, a whole
scan cycle over `fsFullCache` leaves the cache unchanged (no slot
claimed, no entry for the new candidate) and nevertheless hands the new
candidate to the installer — it is installed without a cache entry, not
dropped for the cycle. -/
theorem full_cache_not_dropped_cex :
    (scan_all_paths fsFullCache [] fullCache).cache = fullCache ∧
    (scan_all_paths fsFullCache [] fullCache).installs =
      [⟨"/data/homebrew/New", "CUSA00002", "CUSA00002", false⟩] := by decide

/-- Whether an id lookup succeeded (the C function returned 0). -/
def exceptOk : Except Int (List Char) → Bool
  | .ok _ => true
  | .error _ => false

/-- The combined id lookup fails exactly when both spellings fail the
structural lookup. -/
theorem lookup_none_iff (buf : List Char) :
    lookupTitleId buf = none ↔
      (exceptOk (extract_json_string buf ("titleId".toList) MAX_TITLE_ID) =
        false ∧
       exceptOk (extract_json_string buf ("title_id".toList) MAX_TITLE_ID) =
        false) := by
  unfold lookupTitleId
  cases h1 : extract_json_string buf ("titleId".toList) MAX_TITLE_ID with
  | ok v => simp [exceptOk]
  | error e1 =>
    cases h2 : extract_json_string buf ("title_id".toList) MAX_TITLE_ID with
    | ok v => simp [exceptOk]
    | error e2 => simp [exceptOk]

/-- C8 amended: metadata extraction yields NotFound exactly when the
manifest file is missing, is empty, or neither key spelling admits a
successful structural lookup (key occurrence followed by a colon and a
quoted string value — a key occurring with a non-string value also
fails); and a candidate whose extraction yields NotFound is excluded
from the startup count and from the scan queue: both loop bodies leave
their state unchanged for it. -/
theorem metadata_not_found_iff (raw buf nb : List Char) (fs : FS)
    (root e : String) (st : ScanResult) (stc : Nat × List GameCache)
    (hfix : fix_application_drm_type (some raw) = some buf) :
    (get_game_info (some raw) nb = none ↔
      (buf = [] ∨
        (exceptOk (extract_json_string buf ("titleId".toList) MAX_TITLE_ID) =
          false ∧
         exceptOk (extract_json_string buf ("title_id".toList) MAX_TITLE_ID) =
          false))) ∧
    (get_game_info (fs.readFile (manifestPath (root ++ "/" ++ e))) nb =
        none →
      processEntry fs nb root e st = st ∧ countEntry fs nb root e stc = stc) ∧
    get_game_info (none : Option (List Char)) nb = none := by
  refine ⟨?_, ?_, rfl⟩
  · have key : get_game_info (some raw) nb = none ↔
        (buf.length = 0 ∨ lookupTitleId buf = none) := by
      unfold get_game_info
      rw [hfix]
      by_cases h : buf.length = 0
      · simp [h]
      · simp only [h, if_false]
        cases hl : lookupTitleId buf with
        | none => simp
        | some id => simp [hl]
    rw [key, lookup_none_iff, List.length_eq_zero]
  · intro hnone
    constructor
    · unfold processEntry
      rw [hnone]
      simp
    · unfold countEntry
      rw [hnone]
      simp

/-- File system whose every manifest read yields the one-byte content
`"x"`. -/
def fs8w : FS :=
  ⟨fun _ => false, fun _ => none, fun _ => some ("x".toList),
   fun _ => none, 0⟩

/-- C8 witness: the NotFound characterization and the count/queue
exclusion at the concrete manifest content `"x"` (nonempty, no key). -/
theorem metadata_not_found_iff_w :
    fix_application_drm_type (some ("x".toList)) = some ("x".toList) ∧
    ((get_game_info (some ("x".toList)) [] = none ↔
      ("x".toList = [] ∨
        (exceptOk (extract_json_string ("x".toList) ("titleId".toList)
          MAX_TITLE_ID) = false ∧
         exceptOk (extract_json_string ("x".toList) ("title_id".toList)
          MAX_TITLE_ID) = false))) ∧
    (get_game_info (fs8w.readFile (manifestPath ("/r" ++ "/" ++ "e"))) [] =
        none →
      processEntry fs8w [] "/r" "e" ⟨[], []⟩ = ⟨[], []⟩ ∧
      countEntry fs8w [] "/r" "e" (0, []) = (0, [])) ∧
    get_game_info (none : Option (List Char)) [] = none) :=
  ⟨by decide,
   metadata_not_found_iff ("x".toList) ("x".toList) [] fs8w "/r" "e"
     ⟨[], []⟩ (0, []) (by decide)⟩

/-- A nonempty manifest that does contain the primary key spelling, but
with a non-string value. -/
def rawKeyNoString : List Char := "\x7b\"titleId\":1\x7d".toList

/-- C8 counterexample: a manifest that is not missing, not empty, and
contains the primary key spelling `"titleId"`, for which extraction
still returns NotFound (the value after the key is not a quoted string)
— so "NotFound exactly when missing, empty, or neither spelling present"
is false as stated. -/
theorem metadata_key_present_still_not_found_cex :
    rawKeyNoString ≠ [] ∧
    (findSub (("\"titleId\"").toList) rawKeyNoString).isSome = true ∧
    get_game_info (some rawKeyNoString) [] = none := by decide

/-- Manifest with an id, no name field and no locale section. -/
def manifestNoName : List Char := "\x7b\"titleId\":\"CUSA00001\"\x7d".toList

/-- C9: the name fallback chain ends by copying the id only when the
uninitialized `out_name` stack buffer happens to hold an empty string;
with residual content (here a single `'X'`) the extracted name is that
garbage, not the id — evaluating the code at the claim's own example
`CUSA00001`. -/
theorem name_fallback_reads_stale_buffer :
    get_game_info (some manifestNoName) [] =
      some ("CUSA00001", "CUSA00001") ∧
    get_game_info (some manifestNoName) ("X".toList) =
      some ("CUSA00001", "X") := by decide

end ShadowMount
